import Mathlib

/-!
Shallow embedding of the `baidupan` transfer engine, used to check the
natural-language specification against the code.

Each definition mirrors one function (or one fragment) of the Python source:

* `BaiduPan.Hasher`     — `baidupan/hasher.py` (`compute_hashes` and its cache)
* `BaiduPan.Errors`     — `baidupan/errors.py` (`retry` decorator)
* `BaiduPan.Uploader`   — `baidupan/uploader.py` (`upload_file`,
  `_upload_slices_with_refresh`)
* `BaiduPan.Downloader` — `baidupan/downloader.py` (`_download_concurrent`,
  `_download_stream_with_refresh`, `_worker_task`)
* `BaiduPan.Sync`       — `baidupan/sync.py` (`compare`)

Bytes are modelled as natural numbers and an MD5 digest is modelled by the
exact byte sequence that was fed to the hasher (digests are compared for
equality only, so an injective abstraction is faithful).  The network is
modelled as an environment function: for each round / attempt it yields the
outcome the remote side produced.  File and cache I/O is modelled by explicit
state passing of the on-disk JSON contents.
-/

namespace BaiduPan

/-- Ceiling division on naturals, `⌈a / b⌉`; this is the exact value of
Python's `math.ceil(a / b)` for nonnegative operands. -/
def ceilDiv (a b : Nat) : Nat := (a + b - 1) / b

namespace Config

/-- `config.UPLOAD_CHUNK_SIZE = 4 * 1024 * 1024`. -/
def UPLOAD_CHUNK_SIZE : Nat := 4 * 1024 * 1024

/-- `config.MAX_UPLOAD_SLICES = 2000`. -/
def MAX_UPLOAD_SLICES : Nat := 2000

/-- `config.MAX_RETRIES = 3`. -/
def MAX_RETRIES : Nat := 3

/-- `config.RETRY_BACKOFF = 2`. -/
def RETRY_BACKOFF : Nat := 2

end Config

namespace Hasher

/-- The 64 KB read buffer size used by `compute_hashes` (`f.read(65536)`). -/
def READ_BUFFER : Nat := 65536

/-- `slice_limit = 256 * 1024` — the first 256 KB feed `slice_md5`. -/
def SLICE_LIMIT : Nat := 256 * 1024

/-- Mirror of the `FileHashes` class.  A digest is represented by the byte
sequence that was hashed. -/
structure FileHashes where
  content_md5 : List Nat
  slice_md5 : List Nat
  block_list : List (List Nat)
  file_size : Nat
deriving DecidableEq

/-- The running state of the single read pass of `compute_hashes`:
`content` is what `content_hasher` has absorbed, `sliceAcc` what
`slice_hasher` has absorbed, `bytes_read` the loop counter, `blocks` the
emitted `block_list` so far, and `blockAcc` the bytes currently inside
`block_hasher` (so `block_bytes = blockAcc.length`). -/
structure PassState where
  content : List Nat
  sliceAcc : List Nat
  bytes_read : Nat
  blocks : List (List Nat)
  blockAcc : List Nat
deriving DecidableEq

/-- The inner `while remaining:` loop of `compute_hashes` (lines 113–122):
take `can_take = min(len(remaining), chunk_size - block_bytes)` bytes into the
current block hasher, emitting a block digest and resetting whenever the
accumulator reaches `chunk_size`.  The guard `blockAcc.length < chunkSize` is
an invariant of the source loop (the accumulator is reset to empty exactly
when it reaches `chunkSize`); it is made explicit here for termination. -/
def blockLoop (chunkSize : Nat) (remaining : List Nat) (blocks : List (List Nat))
    (blockAcc : List Nat) : List (List Nat) × List Nat :=
  if h : remaining ≠ [] ∧ blockAcc.length < chunkSize then
    let canTake := min remaining.length (chunkSize - blockAcc.length)
    let acc := blockAcc ++ remaining.take canTake
    let rest := remaining.drop canTake
    if chunkSize ≤ acc.length then
      blockLoop chunkSize rest (blocks ++ [acc]) []
    else
      blockLoop chunkSize rest blocks acc
  else
    (blocks, blockAcc)
termination_by remaining.length
decreasing_by
  all_goals
    simp only [List.length_drop]
    have h1 : remaining.length ≠ 0 := by
      intro hc
      exact h.1 (List.eq_nil_of_length_eq_zero hc)
    omega

/-- One iteration of the outer `while True:` read loop of `compute_hashes`
(lines 99–124) applied to one 64 KB buffer `data`. -/
def processBuffer (chunkSize : Nat) (s : PassState) (data : List Nat) : PassState :=
  let sliceAcc :=
    if s.bytes_read < SLICE_LIMIT then
      s.sliceAcc ++ data.take (min data.length (SLICE_LIMIT - s.bytes_read))
    else s.sliceAcc
  let p := blockLoop chunkSize data s.blocks s.blockAcc
  { content := s.content ++ data
    sliceAcc := sliceAcc
    bytes_read := s.bytes_read + data.length
    blocks := p.1
    blockAcc := p.2 }

/-- The outer read loop of `compute_hashes`: consume the file contents in
64 KB buffers until `f.read` returns nothing. -/
def readLoop (chunkSize : Nat) (s : PassState) (fileData : List Nat) : PassState :=
  if h : fileData ≠ [] then
    readLoop chunkSize (processBuffer chunkSize s (fileData.take READ_BUFFER))
      (fileData.drop READ_BUFFER)
  else s
termination_by fileData.length
decreasing_by
  simp only [List.length_drop]
  have h1 : fileData.length ≠ 0 := by
    intro hc
    exact h (List.eq_nil_of_length_eq_zero hc)
  simp only [READ_BUFFER]
  omega

/-- Mirror of `compute_hashes(filepath, chunk_size)` restricted to its pure
hashing result: the file contents are `fileData`, and the returned digests
are the byte sequences absorbed by each hasher.  After the read loop the
final partial block is flushed only when `block_bytes > 0` (lines 127–128). -/
def compute_hashes (fileData : List Nat) (chunkSize : Nat) : FileHashes :=
  let s0 : PassState := { content := [], sliceAcc := [], bytes_read := 0,
                          blocks := [], blockAcc := [] }
  let s := readLoop chunkSize s0 fileData
  let block_list := if s.blockAcc.length > 0 then s.blocks ++ [s.blockAcc] else s.blocks
  { content_md5 := s.content
    slice_md5 := s.sliceAcc
    block_list := block_list
    file_size := fileData.length }

/-- Python `cache[key] = value` on a dict serialised as an association list:
overwrite the entry if the key is present, otherwise append it. -/
def dictInsert (cache : List (String × FileHashes)) (key : String)
    (v : FileHashes) : List (String × FileHashes) :=
  if cache.lookup key = none then cache ++ [(key, v)]
  else cache.map (fun e => if e.1 = key then (key, v) else e)

/-- The cache side effect of `compute_hashes` (lines 79–85 and 137–139): the
on-disk cache file `disk` after one call.  With `use_cache` the loaded cache
is consulted (a hit returns early without writing); without it the local
`cache` variable starts as the empty dict, the new entry is inserted, and
`_save_cache` rewrites the cache file wholesale with that dict. -/
def cache_after_compute (disk : List (String × FileHashes)) (use_cache : Bool)
    (key : String) (computed : FileHashes) : List (String × FileHashes) :=
  if use_cache then
    match disk.lookup key with
    | some _ => disk
    | none => dictInsert disk key computed
  else dictInsert [] key computed

end Hasher

namespace Errors

/-- The body of the `retry(max_retries, backoff)` wrapper from
`errors.py` (lines 67–84), iterated over the list of attempt numbers
`range(1, max_retries + 1)`.  `results a` is the outcome of calling the
wrapped function on attempt `a`.  The return value collects, in order, the
arguments of the `time.sleep` calls, the number of calls made to the wrapped
function, and the final outcome (`Except.error lastExc` models
`raise last_exc`, which re-raises the exception of the last attempt). -/
def retryAux {E A : Type} (results : Nat → Except E A) (max_retries backoff : Nat)
    (lastExc : Option E) : List Nat → List Nat × Nat × Except (Option E) A
  | [] => ([], 0, .error lastExc)
  | attempt :: rest =>
    match results attempt with
    | .ok v => ([], 1, .ok v)
    | .error e =>
      let r := retryAux results max_retries backoff (some e) rest
      ((if attempt < max_retries then [backoff * attempt] else []) ++ r.1,
       1 + r.2.1, r.2.2)

/-- A call through the `retry` wrapper: attempts are numbered
`1, …, max_retries`. -/
def retry_run {E A : Type} (results : Nat → Except E A)
    (max_retries backoff : Nat) : List Nat × Nat × Except (Option E) A :=
  retryAux results max_retries backoff none (List.range' 1 max_retries)

end Errors

namespace Uploader

/-- `MAX_SESSION_REFRESHES = 20` (`uploader.py` line 20). -/
def MAX_SESSION_REFRESHES : Nat := 20

/-- The chunk-size selection at the top of `upload_file` (lines 69–83):
`num_slices = ceil(size/chunk) if size > 0 else 1`; when it exceeds
`MAX_UPLOAD_SLICES` the chunk size becomes
`ceil(size / MAX_UPLOAD_SLICES / unit) * unit` (exact real division composes,
so the inner value is `ceil(size / (MAX_UPLOAD_SLICES * unit))`). -/
def effective_chunk_size (file_size : Nat) : Nat :=
  let chunk := Config.UPLOAD_CHUNK_SIZE
  let num_slices := if file_size > 0 then ceilDiv file_size chunk else 1
  if num_slices > Config.MAX_UPLOAD_SLICES then
    ceilDiv file_size (Config.MAX_UPLOAD_SLICES * Config.UPLOAD_CHUNK_SIZE) *
      Config.UPLOAD_CHUNK_SIZE
  else chunk

/-- A persisted upload-progress JSON record as read back by `_load_progress`:
each field is optional because the source reads them with `dict.get`. -/
structure ProgressDict where
  upload_id : Option String
  uploaded_parts : Option (List Nat)
  chunk_size : Option Nat
deriving DecidableEq

/-- The resume check of `upload_file` (lines 110–124): with no saved progress
the uploaded set is empty; with saved progress whose
`chunk_size` (defaulting to `config.UPLOAD_CHUNK_SIZE`) differs from the
current chunk size, the saved session is discarded; otherwise the saved
`uploaded_parts` (defaulting to the empty list) are taken over. -/
def resume_uploaded_parts (progress : Option ProgressDict) (chunkSize : Nat) :
    List Nat :=
  match progress with
  | none => []
  | some p =>
    if p.chunk_size.getD Config.UPLOAD_CHUNK_SIZE ≠ chunkSize then []
    else p.uploaded_parts.getD []

/-- `parts_remaining = [i for i in block_list_need if i not in uploaded_parts]`
(line 125). -/
def parts_remaining_after_resume (block_list_need : List Nat)
    (progress : Option ProgressDict) (chunkSize : Nat) : List Nat :=
  block_list_need.filter
    (fun i => !((resume_uploaded_parts progress chunkSize).contains i))

/-- Outcome of one `api.upload_slice` call as produced by the remote side. -/
inductive SliceOutcome
  | ok
  | http400
  | connError
deriving DecidableEq

/-- The environment of `_upload_slices_with_refresh`: `outcome round part`
is what the remote side answers for slice `part` during batch number `round`,
and `precreate round` is the upload id issued by the re-precreate performed
after batch `round` failed (`none` models the `except` branch in lines
287–288 where the refresh call itself fails and the old session is reused). -/
structure RefreshEnv where
  outcome : Nat → Nat → SliceOutcome
  precreate : Nat → Option String

/-- The saved JSON record written by `_save_progress` in
`_upload_slices_with_refresh` (lines 207–211 and 257–261). -/
structure SavedProgress where
  upload_id : String
  uploaded_parts : List Nat
  chunk_size : Nat
deriving DecidableEq

/-- Python `sorted` on a list of naturals (insertion sort). -/
def insertSortedNat (x : Nat) : List Nat → List Nat
  | [] => [x]
  | y :: ys => if x ≤ y then x :: y :: ys else y :: insertSortedNat x ys

/-- Python `sorted` on a list of naturals. -/
def sortParts : List Nat → List Nat
  | [] => []
  | x :: xs => insertSortedNat x (sortParts xs)

/-- Adding a batch of newly completed slice indices to the `uploaded_parts`
set (`set.add` for each success). -/
def addParts (uploaded newParts : List Nat) : List Nat :=
  uploaded ++ newParts.filter (fun p => !(uploaded.contains p))

/-- The mutable state of `_upload_slices_with_refresh`. -/
structure UploadState where
  current_upload_id : String
  uploaded_parts : List Nat
  parts_remaining : List Nat
  session_refreshes : Nat
  saved : Option SavedProgress
  precreate_calls : Nat
  slice_calls : List (Nat × String)
deriving DecidableEq

/-- How a run of `_upload_slices_with_refresh` ends: `done` models the
loop exiting normally, `aborted` models the `raise RuntimeError` after the
session-refresh bound is exceeded, `outOfFuel` means the modelled schedule
ran out before the loop ended. -/
inductive RunResult
  | done (s : UploadState)
  | aborted (s : UploadState)
  | outOfFuel (s : UploadState)
deriving DecidableEq

/-- The state carried by a `RunResult`. -/
def resultState : RunResult → UploadState
  | .done s => s
  | .aborted s => s
  | .outOfFuel s => s

/-- Whether a `RunResult` is a normal completion. -/
def isDone : RunResult → Bool
  | .done _ => true
  | _ => false

/-- Whether a `RunResult` is the bound-exceeded abort. -/
def isAborted : RunResult → Bool
  | .aborted _ => true
  | _ => false

/-- The `while parts_remaining:` loop of `_upload_slices_with_refresh`
(lines 182–288), one recursive call per batch (`round` numbers the batches,
`fuel` bounds the rounds the model will simulate).  Per batch: every part in
`parts_remaining` is attempted with the current upload id; each success is
added to `uploaded_parts` and persisted (the last persisted record of the
batch holds the full updated set); if everything succeeded the loop breaks.
Otherwise the remaining set is recomputed as all block indices not yet
uploaded, the refresh counter is bumped, and either the run aborts with the
progress record saved (lines 255–266) or — unconditionally, whatever mix of
HTTP 400 and connection errors occurred — `api.precreate` is called and a
fresh upload id replaces the current one (lines 274–288; the `has_400` flag
computed on lines 247–252 iterates over an empty list and is never read). -/
def runLoop (env : RefreshEnv) (total_blocks chunkSize : Nat) :
    Nat → Nat → UploadState → RunResult
  | _, 0, s => if s.parts_remaining = [] then .done s else .outOfFuel s
  | round, fuel + 1, s =>
    if s.parts_remaining = [] then .done s
    else
      let attempted := s.parts_remaining
      let succ := attempted.filter (fun p => env.outcome round p = .ok)
      let uploaded := addParts s.uploaded_parts succ
      let sliceLog := s.slice_calls ++ attempted.map (fun p => (p, s.current_upload_id))
      let saved1 : Option SavedProgress :=
        if succ.isEmpty then s.saved
        else some { upload_id := s.current_upload_id,
                    uploaded_parts := sortParts uploaded,
                    chunk_size := chunkSize }
      if attempted.all (fun p => env.outcome round p = .ok) then
        .done { s with uploaded_parts := uploaded, saved := saved1,
                       slice_calls := sliceLog }
      else
        let remaining := (List.range total_blocks).filter
          (fun i => !(uploaded.contains i))
        let refreshes := s.session_refreshes + 1
        if MAX_SESSION_REFRESHES < refreshes then
          .aborted { current_upload_id := s.current_upload_id,
                     uploaded_parts := uploaded,
                     parts_remaining := remaining,
                     session_refreshes := refreshes,
                     saved := some { upload_id := s.current_upload_id,
                                     uploaded_parts := sortParts uploaded,
                                     chunk_size := chunkSize },
                     precreate_calls := s.precreate_calls,
                     slice_calls := sliceLog }
        else
          let newId := (env.precreate round).getD s.current_upload_id
          runLoop env total_blocks chunkSize (round + 1) fuel
            { current_upload_id := newId,
              uploaded_parts := uploaded,
              parts_remaining := remaining,
              session_refreshes := refreshes,
              saved := saved1,
              precreate_calls := s.precreate_calls + 1,
              slice_calls := sliceLog }

/-- The initial state with which `upload_file` enters
`_upload_slices_with_refresh` (line 131): the upload id from the first
precreate, the resumed uploaded set, and the remaining parts. -/
def initState (uid : String) (uploaded parts : List Nat) : UploadState :=
  { current_upload_id := uid
    uploaded_parts := uploaded
    parts_remaining := parts
    session_refreshes := 0
    saved := none
    precreate_calls := 0
    slice_calls := [] }

/-- An environment in which every slice upload succeeds. -/
def allOkEnv : RefreshEnv :=
  { outcome := fun _ _ => .ok
    precreate := fun _ => some "fresh-upload-id" }

/-- An environment in which, during the first batch, slice 2 fails with a
transient connection error and every other call succeeds; precreate issues
the upload id `uploadid-2`. -/
def connErrOnceEnv : RefreshEnv :=
  { outcome := fun round p =>
      if round = 0 && p = 2 then .connError else .ok
    precreate := fun _ => some "uploadid-2" }

/-- An environment in which every slice upload fails with HTTP 400
(persistent session expiry) and every re-precreate succeeds. -/
def always400Env : RefreshEnv :=
  { outcome := fun _ _ => .http400
    precreate := fun r => some (String.append "refresh-" (toString r)) }

end Uploader

namespace Downloader

/-- The segment-computation loop of `_download_concurrent` (lines 150–158):
starting from `offset = 0`, `idx = 0`, append `(idx, offset, end)` with
`end = min(offset + seg_size - 1, file_size - 1)` and continue from
`end + 1`.  The guard `0 < segSize` is explicit for termination (the source
loop would not terminate on a zero segment size). -/
def segmentsAux (file_size seg_size : Nat) (offset idx : Nat) :
    List (Nat × Nat × Nat) :=
  if h : offset < file_size ∧ 0 < seg_size then
    (idx, offset, min (offset + seg_size - 1) (file_size - 1)) ::
      segmentsAux file_size seg_size (min (offset + seg_size - 1) (file_size - 1) + 1)
        (idx + 1)
  else []
termination_by file_size - offset
decreasing_by omega

/-- The segment list computed by `_download_concurrent`. -/
def compute_segments (file_size seg_size : Nat) : List (Nat × Nat × Nat) :=
  segmentsAux file_size seg_size 0 0

/-- The round-robin distribution loop of `_download_concurrent`
(lines 180–182): `worker_segments[i % actual_workers].append(seg)`. -/
def distributeAux {α : Type} (aw : Nat) : List α → Nat → List (List α) →
    List (List α)
  | [], _, buckets => buckets
  | seg :: rest, i, buckets =>
    distributeAux aw rest (i + 1)
      (buckets.set (i % aw) (buckets.getD (i % aw) [] ++ [seg]))

/-- `worker_segments` after the distribution loop, starting from
`[[] for _ in range(actual_workers)]`. -/
def worker_segments {α : Type} (remaining : List α) (actual_workers : Nat) :
    List (List α) :=
  distributeAux actual_workers remaining 0 (List.replicate actual_workers [])

/-- `_download_stream_with_refresh` (lines 114–130) restricted to its
download-link accounting: `is403 a` tells whether attempt `a` (0-based)
hits an HTTP 403.  The result is the number of `api.get_download_link`
calls made inside the function and whether a stream was obtained.  A new
link is acquired only after a 403 on an attempt that is not the last one. -/
def streamRefreshAux (is403 : Nat → Bool) (max_retries : Nat) :
    List Nat → Nat → Nat × Bool
  | [], acquired => (acquired, false)
  | attempt :: rest, acquired =>
    if is403 attempt then
      if attempt < max_retries - 1 then streamRefreshAux is403 max_retries rest (acquired + 1)
      else (acquired, false)
    else (acquired, true)

/-- The dlink acquisitions made by one `_download_stream_with_refresh` call
with the default `max_retries = 5`. -/
def download_stream_with_refresh (is403 : Nat → Bool) : Nat × Bool :=
  streamRefreshAux is403 5 (List.range 5) 0

/-- The per-segment part of `_worker_task` (lines 204–215): for each assigned
segment (numbered by its position in the worker's list) one
`_download_stream_with_refresh` call is made; `is403 segPos attempt` is the
environment for that segment's attempts. -/
def workerTaskAux {α : Type} (is403 : Nat → Nat → Bool) :
    List α → Nat → Nat
  | [], _ => 0
  | _ :: rest, segPos =>
    (download_stream_with_refresh (is403 segPos)).1 + workerTaskAux is403 rest (segPos + 1)

/-- The download-link acquisitions made by one `_worker_task` (lines
196–222): exactly one up-front `api.get_download_link` call (line 202) plus
whatever refreshes its segments needed. -/
def worker_task_dlinks {α : Type} (is403 : Nat → Nat → Bool)
    (assigned : List α) : Nat :=
  1 + workerTaskAux is403 assigned 0

/-- Total acquisitions across the workers spawned for the bucket lists,
worker `w` seeing environment `is403 w`. -/
def totalDlinkAux {α : Type} (is403 : Nat → Nat → Nat → Bool) :
    Nat → List (List α) → Nat
  | _, [] => 0
  | w, segs :: rest =>
    worker_task_dlinks (is403 w) segs + totalDlinkAux is403 (w + 1) rest

/-- The download-link acquisitions of one `_download_concurrent` call with
the given remaining segments and worker count:
`actual_workers = min(workers, len(remaining))` (line 179), one spawned
worker per bucket. -/
def total_dlink_calls {α : Type} (is403 : Nat → Nat → Nat → Bool)
    (remaining : List α) (workers : Nat) : Nat :=
  totalDlinkAux is403 0 (worker_segments remaining (min workers remaining.length))

end Downloader

namespace Sync

/-- Code-point comparison of strings, the order Python's `sorted` uses on
`str` keys. -/
def strLeAux : List Char → List Char → Bool
  | [], _ => true
  | _ :: _, [] => false
  | a :: as, b :: bs =>
    if a.toNat < b.toNat then true
    else if b.toNat < a.toNat then false
    else strLeAux as bs

/-- String comparison for `sorted`. -/
def strLe (a b : String) : Bool := strLeAux a.data b.data

/-- Insertion step of `sorted` on strings. -/
def insertSortedStr (x : String) : List String → List String
  | [] => [x]
  | y :: ys => if strLe x y then x :: y :: ys else y :: insertSortedStr x ys

/-- Python `sorted` on string lists. -/
def sortedStr : List String → List String
  | [] => []
  | x :: xs => insertSortedStr x (sortedStr xs)

/-- The four lists returned by `compare` (`sync.py` lines 100–107). -/
structure DiffResult where
  local_only : List String
  remote_only : List String
  different : List String
  same : List String
deriving DecidableEq

/-- A directory listing: relative path → size, as built by `_gather_local`
and `_gather_remote` (dicts, so keys are unique by construction). -/
def keys (files : List (String × Nat)) : List String := files.map Prod.fst

/-- Mirror of `compare` (`sync.py` lines 68–107) on the two listings:
`local_only = sorted(local_keys - remote_keys)`,
`remote_only = sorted(remote_keys - local_keys)`, and every common key,
visited in sorted order, goes to `different` or `same` according to a
size-only equality test. -/
def compare (localFiles remoteFiles : List (String × Nat)) : DiffResult :=
  let localKeys := keys localFiles
  let remoteKeys := keys remoteFiles
  let common := sortedStr (localKeys.filter (fun k => remoteKeys.contains k))
  { local_only := sortedStr (localKeys.filter (fun k => !(remoteKeys.contains k)))
    remote_only := sortedStr (remoteKeys.filter (fun k => !(localKeys.contains k)))
    different := common.filter
      (fun k => !(localFiles.lookup k == remoteFiles.lookup k))
    same := common.filter
      (fun k => localFiles.lookup k == remoteFiles.lookup k) }

end Sync

/-! ## Helper lemmas -/

theorem ceilDiv_le_iff {a b m : Nat} (hb : 0 < b) : ceilDiv a b ≤ m ↔ a ≤ m * b := by
  unfold ceilDiv
  rw [Nat.div_le_iff_le_mul_add_pred hb, Nat.mul_comm b m]
  omega

/-! ## C10 — cache file rewritten with only the new entry when `use_cache=False` -/

/-- Claim C10: calling `compute_hashes` with `use_cache=False` rewrites the
persistent hash-cache file with a dictionary containing only the newly
computed entry, erasing every previously cached digest for all other
files. -/
theorem compute_hashes_no_cache_erases (disk : List (String × Hasher.FileHashes))
    (key : String) (computed : Hasher.FileHashes) :
    Hasher.cache_after_compute disk false key computed = [(key, computed)] := by
  simp [Hasher.cache_after_compute, Hasher.dictInsert]

/-! ## C7 — retry wrapper backoff sequence and call count -/

theorem retryAux_nil {E A : Type} (results : Nat → Except E A)
    (N B : Nat) (lastExc : Option E) :
    Errors.retryAux results N B lastExc [] = ([], 0, .error lastExc) := rfl

theorem retryAux_cons {E A : Type} (results : Nat → Except E A) (N B : Nat)
    (lastExc : Option E) (attempt : Nat) (rest : List Nat) :
    Errors.retryAux results N B lastExc (attempt :: rest) =
      match results attempt with
      | .ok v => ([], 1, .ok v)
      | .error e =>
        ((if attempt < N then [B * attempt] else []) ++
            (Errors.retryAux results N B (some e) rest).1,
         1 + (Errors.retryAux results N B (some e) rest).2.1,
         (Errors.retryAux results N B (some e) rest).2.2) := rfl

theorem retryAux_all_error {E A : Type} (results : Nat → Except E A)
    (N B : Nat) (err : Nat → E) :
    ∀ m s lastExc, s + m = N →
      (∀ i, s ≤ i → i ≤ N → results i = .error (err i)) →
      Errors.retryAux results N B lastExc (List.range' s (m + 1)) =
        ((List.range' s m).map (fun i => B * i), m + 1, .error (some (err N))) := by
  intro m
  induction m with
  | zero =>
    intro s lastExc hs hres
    have h1 : results s = .error (err s) := hres s (Nat.le_refl s) (by omega)
    have h2 : err s = err N := by
      have hsN : s = N := by omega
      rw [hsN]
    have h3 : ¬(s < N) := by omega
    simp [List.range'_succ, retryAux_cons, retryAux_nil, h1, h2, h3]
  | succ m ih =>
    intro s lastExc hs hres
    have h1 : results s = .error (err s) := hres s (Nat.le_refl s) (by omega)
    have h2 := ih (s + 1) (some (err s)) (by omega)
      (fun i hi1 hi2 => hres i (by omega) hi2)
    rw [List.range'_succ]
    simp only [retryAux_cons, h1, h2]
    have hsN : s < N := by omega
    simp [hsN, List.range'_succ]
    omega

theorem retryAux_ok_last {E A : Type} (results : Nat → Except E A)
    (N B : Nat) (v : A) :
    ∀ m s lastExc, s + m = N →
      (∀ i, s ≤ i → i < N → ∃ e, results i = .error e) →
      results N = .ok v →
      Errors.retryAux results N B lastExc (List.range' s (m + 1)) =
        ((List.range' s m).map (fun i => B * i), m + 1, .ok v) := by
  intro m
  induction m with
  | zero =>
    intro s lastExc hs hres hok
    have h1 : results s = .ok v := by
      have hsN : s = N := by omega
      rw [hsN]
      exact hok
    simp [List.range'_succ, retryAux_cons, h1]
  | succ m ih =>
    intro s lastExc hs hres hok
    obtain ⟨e, he⟩ := hres s (Nat.le_refl s) (by omega)
    have h2 := ih (s + 1) (some e) (by omega)
      (fun i hi1 hi2 => hres i (by omega) hi2) hok
    rw [List.range'_succ]
    simp only [retryAux_cons, he, h2]
    have hsN : s < N := by omega
    simp [hsN, List.range'_succ]
    omega

/-- Claim C7: under `maxRetries=N, backoff=B`, a wrapped call that fails
`N-1` times and then succeeds sleeps exactly `B*1, B*2, …, B*(N-1)` between
attempts and returns the successful value; a call failing on every attempt
makes exactly `N` calls and `N-1` sleeps and then raises the exception from
the last attempt. -/
theorem retry_backoff_behavior {E A : Type} (results : Nat → Except E A)
    (N B : Nat) (hN : 1 ≤ N) :
    (∀ v : A, (∀ i, 1 ≤ i → i < N → ∃ e, results i = .error e) →
      results N = .ok v →
      Errors.retry_run results N B =
        ((List.range' 1 (N - 1)).map (fun i => B * i), N, .ok v)) ∧
    (∀ err : Nat → E, (∀ i, 1 ≤ i → i ≤ N → results i = .error (err i)) →
      Errors.retry_run results N B =
        ((List.range' 1 (N - 1)).map (fun i => B * i), N, .error (some (err N)))) := by
  constructor
  · intro v hres hok
    have h := retryAux_ok_last results N B v (N - 1) 1 none (by omega) hres hok
    rw [show N - 1 + 1 = N by omega] at h
    unfold Errors.retry_run
    rw [h]
  · intro err hres
    have h := retryAux_all_error results N B err (N - 1) 1 none (by omega) hres
    rw [show N - 1 + 1 = N by omega] at h
    unfold Errors.retry_run
    rw [h]

/-- Witness for C7 at `N = 3`, `B = 2` with a call failing on attempts 1 and
2 and succeeding on attempt 3: sleeps `[2, 4]`, three calls, returns 42. -/
theorem retry_backoff_behavior_witness :
    Errors.retry_run (fun i => if i < 3 then Except.error i else Except.ok 42) 3 2
      = ([2, 4], 3, Except.ok (42 : Nat)) := by
  have h := (retry_backoff_behavior
      (fun i => if i < 3 then Except.error i else Except.ok (42 : Nat)) 3 2
      (by decide)).1 42 (fun i _ h2 => ⟨i, by simp [h2]⟩) (by rfl)
  rw [h]
  rfl

/-! ## C4 — effective chunk size is the least 4 MiB multiple under the ceiling -/

/-- Claim C4: when `ceil(size / 4MiB)` exceeds `MAX_UPLOAD_SLICES`,
`upload_file` chooses as effective chunk size the smallest positive multiple
`k * 4MiB` with `ceil(size / (k*4MiB)) ≤ MAX_UPLOAD_SLICES`; otherwise the
chunk size stays 4 MiB. -/
theorem upload_chunk_size_scaling (file_size : Nat) :
    (ceilDiv file_size Config.UPLOAD_CHUNK_SIZE ≤ Config.MAX_UPLOAD_SLICES →
      Uploader.effective_chunk_size file_size = Config.UPLOAD_CHUNK_SIZE) ∧
    (Config.MAX_UPLOAD_SLICES < ceilDiv file_size Config.UPLOAD_CHUNK_SIZE →
      ∃ k, 0 < k ∧
        Uploader.effective_chunk_size file_size = k * Config.UPLOAD_CHUNK_SIZE ∧
        ceilDiv file_size (k * Config.UPLOAD_CHUNK_SIZE) ≤ Config.MAX_UPLOAD_SLICES ∧
        ∀ j, 0 < j →
          ceilDiv file_size (j * Config.UPLOAD_CHUNK_SIZE) ≤ Config.MAX_UPLOAD_SLICES →
          k ≤ j) := by
  have hu : 0 < Config.UPLOAD_CHUNK_SIZE := by decide
  have hMu : 0 < Config.MAX_UPLOAD_SLICES * Config.UPLOAD_CHUNK_SIZE := by decide
  constructor
  · intro h
    rcases Nat.eq_zero_or_pos file_size with h0 | h0
    · rw [h0]
      decide
    · unfold Uploader.effective_chunk_size
      simp only [h0, if_pos, gt_iff_lt]
      rw [if_neg (by omega)]
  · intro h
    have hpos : 0 < file_size := by
      by_contra hc
      have h0 : file_size = 0 := by omega
      rw [h0] at h
      have : ceilDiv 0 Config.UPLOAD_CHUNK_SIZE = 0 := by decide
      omega
    set k := ceilDiv file_size (Config.MAX_UPLOAD_SLICES * Config.UPLOAD_CHUNK_SIZE) with hk
    have hfk : file_size ≤ k * (Config.MAX_UPLOAD_SLICES * Config.UPLOAD_CHUNK_SIZE) :=
      (ceilDiv_le_iff hMu).mp (Nat.le_refl k)
    have hkpos : 0 < k := by
      rcases Nat.eq_zero_or_pos k with h0 | h0
      · rw [h0] at hfk
        omega
      · exact h0
    refine ⟨k, hkpos, ?_, ?_, ?_⟩
    · unfold Uploader.effective_chunk_size
      simp only [hpos, if_pos, gt_iff_lt]
      rw [if_pos (by omega)]
    · rw [ceilDiv_le_iff (by positivity)]
      calc file_size ≤ k * (Config.MAX_UPLOAD_SLICES * Config.UPLOAD_CHUNK_SIZE) := hfk
        _ = Config.MAX_UPLOAD_SLICES * (k * Config.UPLOAD_CHUNK_SIZE) := by ring
    · intro j hj hle
      rw [ceilDiv_le_iff (by positivity)] at hle
      have : file_size ≤ j * (Config.MAX_UPLOAD_SLICES * Config.UPLOAD_CHUNK_SIZE) := by
        calc file_size ≤ Config.MAX_UPLOAD_SLICES * (j * Config.UPLOAD_CHUNK_SIZE) := hle
          _ = j * (Config.MAX_UPLOAD_SLICES * Config.UPLOAD_CHUNK_SIZE) := by ring
      exact (ceilDiv_le_iff hMu).mpr this

/-- Witness for C4 at a 2001-slice file (`size = 2001 * 4MiB`): the slice
count exceeds the ceiling, so a minimal scaled chunk size exists. -/
theorem upload_chunk_size_scaling_witness :
    ∃ k, 0 < k ∧
      Uploader.effective_chunk_size 8392802304 = k * Config.UPLOAD_CHUNK_SIZE ∧
      ceilDiv 8392802304 (k * Config.UPLOAD_CHUNK_SIZE) ≤ Config.MAX_UPLOAD_SLICES ∧
      ∀ j, 0 < j →
        ceilDiv 8392802304 (j * Config.UPLOAD_CHUNK_SIZE) ≤ Config.MAX_UPLOAD_SLICES →
        k ≤ j :=
  (upload_chunk_size_scaling 8392802304).2 (by decide)

/-! ## C5 — concurrent-download segment list partitions `[0, fileSize)` -/

theorem ceilDiv_zero_left (b : Nat) : ceilDiv 0 b = 0 := by
  unfold ceilDiv
  rcases b with _ | b
  · rfl
  · exact Nat.div_eq_of_lt (by omega)

theorem ceilDiv_sub {a ss : Nat} (h : ss ≤ a) (hss : 0 < ss) :
    ceilDiv a ss = ceilDiv (a - ss) ss + 1 := by
  unfold ceilDiv
  rw [show a + ss - 1 = (a - ss + ss - 1) + ss by omega, Nat.add_div_right _ hss]

theorem ceilDiv_eq_one {a ss : Nat} (h1 : 1 ≤ a) (h2 : a ≤ ss) :
    ceilDiv a ss = 1 := by
  unfold ceilDiv
  exact Nat.div_eq_of_lt_le (by omega) (by omega)

theorem segmentsAux_stop (fs ss offset idx : Nat) (h : fs ≤ offset ∨ ss = 0) :
    Downloader.segmentsAux fs ss offset idx = [] := by
  unfold Downloader.segmentsAux
  rw [dif_neg]
  omega

theorem segmentsAux_step (fs ss offset idx : Nat) (h1 : offset < fs) (h2 : 0 < ss) :
    Downloader.segmentsAux fs ss offset idx =
      (idx, offset, min (offset + ss - 1) (fs - 1)) ::
        Downloader.segmentsAux fs ss (min (offset + ss - 1) (fs - 1) + 1) (idx + 1) := by
  rw [Downloader.segmentsAux]
  rw [dif_pos ⟨h1, h2⟩]

theorem segmentsAux_closed (fs ss : Nat) (hss : 0 < ss) :
    ∀ N idx, fs - idx * ss ≤ N →
      Downloader.segmentsAux fs ss (idx * ss) idx =
        (List.range' idx (ceilDiv (fs - idx * ss) ss)).map
          (fun k => (k, k * ss, min ((k + 1) * ss) fs - 1)) := by
  intro N
  induction N with
  | zero =>
    intro idx h
    rw [segmentsAux_stop _ _ _ _ (Or.inl (by omega))]
    rw [show fs - idx * ss = 0 by omega, ceilDiv_zero_left]
    rfl
  | succ N ih =>
    intro idx h
    by_cases hlt : idx * ss < fs
    · rw [segmentsAux_step _ _ _ _ hlt hss]
      have hmin : min (idx * ss + ss - 1) (fs - 1) + 1 = min ((idx + 1) * ss) fs := by
        rw [Nat.succ_mul]
        omega
      by_cases hfit : (idx + 1) * ss ≤ fs
      · have hrec : min (idx * ss + ss - 1) (fs - 1) + 1 = (idx + 1) * ss := by
          omega
        rw [hrec]
        have hmeas : fs - (idx + 1) * ss ≤ N := by
          rw [Nat.succ_mul]
          omega
        rw [ih (idx + 1) hmeas]
        have hcd : ceilDiv (fs - idx * ss) ss = ceilDiv (fs - (idx + 1) * ss) ss + 1 := by
          rw [show fs - (idx + 1) * ss = (fs - idx * ss) - ss by rw [Nat.succ_mul]; omega]
          exact ceilDiv_sub (by rw [Nat.succ_mul] at hfit; omega) hss
        rw [hcd, List.range'_succ, List.map_cons]
        have hhead : min (idx * ss + ss - 1) (fs - 1) = min ((idx + 1) * ss) fs - 1 := by
          omega
        rw [hhead]
      · have hrec : min (idx * ss + ss - 1) (fs - 1) + 1 = fs := by
          rw [Nat.succ_mul] at hfit
          omega
        rw [hrec, segmentsAux_stop _ _ _ _ (Or.inl (Nat.le_refl fs))]
        have hcd : ceilDiv (fs - idx * ss) ss = 1 := by
          apply ceilDiv_eq_one (by omega)
          rw [Nat.succ_mul] at hfit
          omega
        rw [hcd, List.range'_succ, List.range'_zero, List.map_cons, List.map_nil]
        have hhead : min (idx * ss + ss - 1) (fs - 1) = min ((idx + 1) * ss) fs - 1 := by
          rw [Nat.succ_mul]
          omega
        rw [hhead]
    · rw [segmentsAux_stop _ _ _ _ (Or.inl (by omega))]
      rw [show fs - idx * ss = 0 by omega, ceilDiv_zero_left]
      rfl

theorem compute_segments_closed (fs ss : Nat) (hss : 0 < ss) :
    Downloader.compute_segments fs ss =
      (List.range (ceilDiv fs ss)).map
        (fun k => (k, k * ss, min ((k + 1) * ss) fs - 1)) := by
  unfold Downloader.compute_segments
  have h := segmentsAux_closed fs ss hss (fs - 0 * ss) 0 (Nat.le_refl _)
  rw [Nat.zero_mul] at h
  rw [Nat.sub_zero] at h
  rw [h, List.range_eq_range']

theorem compute_segments_getD (fs ss k : Nat) (hss : 0 < ss)
    (hk : k < ceilDiv fs ss) :
    (Downloader.compute_segments fs ss).getD k (0, 0, 0) =
      (k, k * ss, min ((k + 1) * ss) fs - 1) := by
  rw [compute_segments_closed fs ss hss]
  have hlen : k < ((List.range (ceilDiv fs ss)).map
      (fun k => (k, k * ss, min ((k + 1) * ss) fs - 1))).length := by
    simpa using hk
  rw [List.getD_eq_getElem _ _ hlen, List.getElem_map, List.getElem_range]

/-- Claim C5: for positive file and segment sizes, the segment list of
`_download_concurrent` is the ordered sequence `(k, k*ss, min((k+1)*ss, fs)-1)`
for `k < ceil(fs/ss)`: consecutive segments are contiguous (no gap, no
overlap), the first starts at byte 0, the last ends at byte `fs - 1`, every
segment except possibly the last spans exactly `ss` bytes and the last spans
at most `ss` bytes. -/
theorem download_segments_cover (fs ss : Nat) (hfs : 0 < fs) (hss : 0 < ss) :
    Downloader.compute_segments fs ss =
      (List.range (ceilDiv fs ss)).map
        (fun k => (k, k * ss, min ((k + 1) * ss) fs - 1)) ∧
    (Downloader.compute_segments fs ss).length = ceilDiv fs ss ∧
    (∀ k, k < ceilDiv fs ss →
      ((Downloader.compute_segments fs ss).getD k (0, 0, 0)).1 = k ∧
      ((Downloader.compute_segments fs ss).getD k (0, 0, 0)).2.1 = k * ss ∧
      ((Downloader.compute_segments fs ss).getD k (0, 0, 0)).2.2 + 1 =
        min ((k + 1) * ss) fs) ∧
    ((Downloader.compute_segments fs ss).getD 0 (0, 0, 0)).2.1 = 0 ∧
    ((Downloader.compute_segments fs ss).getD (ceilDiv fs ss - 1) (0, 0, 0)).2.2 =
      fs - 1 ∧
    (∀ k, k + 1 < ceilDiv fs ss →
      ((Downloader.compute_segments fs ss).getD (k + 1) (0, 0, 0)).2.1 =
        ((Downloader.compute_segments fs ss).getD k (0, 0, 0)).2.2 + 1) ∧
    (∀ k, k + 1 < ceilDiv fs ss →
      ((Downloader.compute_segments fs ss).getD k (0, 0, 0)).2.2 + 1 -
        ((Downloader.compute_segments fs ss).getD k (0, 0, 0)).2.1 = ss) ∧
    ((Downloader.compute_segments fs ss).getD (ceilDiv fs ss - 1) (0, 0, 0)).2.2 + 1 -
      ((Downloader.compute_segments fs ss).getD (ceilDiv fs ss - 1) (0, 0, 0)).2.1 ≤ ss := by
  have hn1 : 1 ≤ ceilDiv fs ss := by
    by_contra hc
    have h0 : ceilDiv fs ss ≤ 0 := by omega
    rw [ceilDiv_le_iff hss] at h0
    omega
  have hcover : fs ≤ ceilDiv fs ss * ss := (ceilDiv_le_iff hss).mp (Nat.le_refl _)
  have hstrict : ∀ m, m < ceilDiv fs ss → m * ss < fs := by
    intro m hm
    by_contra hc
    have : ceilDiv fs ss ≤ m := (ceilDiv_le_iff hss).mpr (by omega)
    omega
  refine ⟨compute_segments_closed fs ss hss, ?_, ?_, ?_, ?_, ?_, ?_, ?_⟩
  · rw [compute_segments_closed fs ss hss]
    simp
  · intro k hk
    rw [compute_segments_getD fs ss k hss hk]
    dsimp only
    refine ⟨rfl, rfl, ?_⟩
    have h1 : 1 ≤ (k + 1) * ss := by
      rw [Nat.succ_mul]
      omega
    omega
  · rw [compute_segments_getD fs ss 0 hss (by omega)]
    simp
  · rw [compute_segments_getD fs ss (ceilDiv fs ss - 1) hss (by omega)]
    dsimp only
    have heq : (ceilDiv fs ss - 1 + 1) * ss = ceilDiv fs ss * ss := by
      congr 1
      omega
    rw [heq]
    omega
  · intro k hk
    rw [compute_segments_getD fs ss (k + 1) hss hk,
      compute_segments_getD fs ss k hss (by omega)]
    dsimp only
    have h1 : (k + 1) * ss < fs := hstrict (k + 1) hk
    have h2 : (k + 1) * ss = k * ss + ss := Nat.succ_mul k ss
    omega
  · intro k hk
    rw [compute_segments_getD fs ss k hss (by omega)]
    dsimp only
    have h1 : (k + 1) * ss < fs := hstrict (k + 1) hk
    have h2 : (k + 1) * ss = k * ss + ss := Nat.succ_mul k ss
    omega
  · rw [compute_segments_getD fs ss (ceilDiv fs ss - 1) hss (by omega)]
    dsimp only
    have hsm : (ceilDiv fs ss - 1) * ss + ss = (ceilDiv fs ss - 1 + 1) * ss :=
      (Nat.succ_mul _ _).symm
    have hn : ceilDiv fs ss - 1 + 1 = ceilDiv fs ss := by omega
    rw [hn] at hsm
    rw [hn]
    omega

/-- Witness for C5: `fileSize = 8000`, `segmentSize = 1024` yields exactly the
eight segments `[0,1023], [1024,2047], …, [7168,7999]`. -/
theorem download_segments_cover_witness :
    Downloader.compute_segments 8000 1024 =
      [(0, 0, 1023), (1, 1024, 2047), (2, 2048, 3071), (3, 3072, 4095),
       (4, 4096, 5119), (5, 5120, 6143), (6, 6144, 7167), (7, 7168, 7999)] := by
  have h := (download_segments_cover 8000 1024 (by decide) (by decide)).1
  rw [h]
  decide

/-! ## C8 — one download-link acquisition per worker when no 403 occurs -/

theorem download_stream_with_refresh_no403 (is403 : Nat → Bool)
    (h : is403 0 = false) :
    Downloader.download_stream_with_refresh is403 = (0, true) := by
  unfold Downloader.download_stream_with_refresh
  rw [show List.range 5 = [0, 1, 2, 3, 4] from rfl]
  simp [Downloader.streamRefreshAux, h]

theorem workerTaskAux_no403 {α : Type} (is403 : Nat → Nat → Bool)
    (h : ∀ sPos a, is403 sPos a = false) :
    ∀ (assigned : List α) (sPos : Nat),
      Downloader.workerTaskAux is403 assigned sPos = 0 := by
  intro assigned
  induction assigned with
  | nil => intro sPos; rfl
  | cons x rest ih =>
    intro sPos
    unfold Downloader.workerTaskAux
    rw [download_stream_with_refresh_no403 (is403 sPos) (h sPos 0), ih (sPos + 1)]

theorem totalDlinkAux_no403 {α : Type} (is403 : Nat → Nat → Nat → Bool)
    (h : ∀ w sPos a, is403 w sPos a = false) :
    ∀ (buckets : List (List α)) (w : Nat),
      Downloader.totalDlinkAux is403 w buckets = buckets.length := by
  intro buckets
  induction buckets with
  | nil => intro w; rfl
  | cons b rest ih =>
    intro w
    unfold Downloader.totalDlinkAux Downloader.worker_task_dlinks
    rw [workerTaskAux_no403 (is403 w) (h w) b 0, ih (w + 1)]
    simp only [List.length_cons]
    omega

theorem distributeAux_length {α : Type} (aw : Nat) :
    ∀ (segs : List α) (i : Nat) (buckets : List (List α)),
      (Downloader.distributeAux aw segs i buckets).length = buckets.length := by
  intro segs
  induction segs with
  | nil => intro i buckets; rfl
  | cons s rest ih =>
    intro i buckets
    unfold Downloader.distributeAux
    rw [ih, List.length_set]

theorem worker_segments_length {α : Type} (remaining : List α) (aw : Nat) :
    (Downloader.worker_segments remaining aw).length = aw := by
  unfold Downloader.worker_segments
  rw [distributeAux_length, List.length_replicate]

/-- Claim C8: in a concurrent download where no HTTP 403 occurs, exactly
`min(workers, number-of-remaining-segments)` download-link acquisitions are
made in total, and every worker makes exactly one acquisition regardless of
how many segments it is assigned. -/
theorem download_links_per_worker {α : Type} (remaining : List α) (workers : Nat)
    (is403 : Nat → Nat → Nat → Bool) (h : ∀ w sPos a, is403 w sPos a = false) :
    Downloader.total_dlink_calls is403 remaining workers =
      min workers remaining.length ∧
    ∀ w (assigned : List α),
      Downloader.worker_task_dlinks (is403 w) assigned = 1 := by
  constructor
  · unfold Downloader.total_dlink_calls
    rw [totalDlinkAux_no403 is403 h, worker_segments_length]
  · intro w assigned
    unfold Downloader.worker_task_dlinks
    rw [workerTaskAux_no403 (is403 w) (h w) assigned 0]

/-- Witness for C8: five remaining segments, `workers = 2`, no 403 anywhere:
exactly 2 download-link acquisitions. -/
theorem download_links_per_worker_witness :
    Downloader.total_dlink_calls (fun _ _ _ => false)
      [(0, 0, 9), (1, 10, 19), (2, 20, 29), (3, 30, 39), (4, 40, 49)] 2 = 2 := by
  have h := (download_links_per_worker
    [((0 : Nat), (0 : Nat), (9 : Nat)), (1, 10, 19), (2, 20, 29), (3, 30, 39),
      (4, 40, 49)] 2 (fun _ _ _ => false) (fun _ _ _ => rfl)).1
  rw [h]
  decide

/-! ## C9 — four-way diff partition classified by size only -/

theorem mem_insertSortedStr (x a : String) :
    ∀ l : List String, a ∈ Sync.insertSortedStr x l ↔ a = x ∨ a ∈ l := by
  intro l
  induction l with
  | nil => simp [Sync.insertSortedStr]
  | cons y ys ih =>
    unfold Sync.insertSortedStr
    by_cases hc : Sync.strLe x y
    · simp [hc]
    · simp [hc, ih]
      tauto

theorem mem_sortedStr (a : String) :
    ∀ l : List String, a ∈ Sync.sortedStr l ↔ a ∈ l := by
  intro l
  induction l with
  | nil => simp [Sync.sortedStr]
  | cons x xs ih =>
    unfold Sync.sortedStr
    rw [mem_insertSortedStr, ih]
    simp

/-- Claim C9: `compare` partitions the union of relative-path keys into the
four disjoint sets — local-only, remote-only, size-different, same — with a
path present on both sides classified solely by size equality; the concrete
instance local `{a:3, b:3, c:1}` versus remote `{b:3, c:99, d:5}` yields
`local_only = {a}`, `remote_only = {d}`, `different = {c}`, `same = {b}`. -/
theorem compare_partition :
    (∀ (L R : List (String × Nat)) (p : String),
      (p ∈ (Sync.compare L R).local_only ↔
        p ∈ Sync.keys L ∧ ¬p ∈ Sync.keys R) ∧
      (p ∈ (Sync.compare L R).remote_only ↔
        p ∈ Sync.keys R ∧ ¬p ∈ Sync.keys L) ∧
      (p ∈ (Sync.compare L R).different ↔
        p ∈ Sync.keys L ∧ p ∈ Sync.keys R ∧ L.lookup p ≠ R.lookup p) ∧
      (p ∈ (Sync.compare L R).same ↔
        p ∈ Sync.keys L ∧ p ∈ Sync.keys R ∧ L.lookup p = R.lookup p)) ∧
    Sync.compare [("a", 3), ("b", 3), ("c", 1)] [("b", 3), ("c", 99), ("d", 5)] =
      { local_only := ["a"], remote_only := ["d"], different := ["c"],
        same := ["b"] } := by
  constructor
  · intro L R p
    refine ⟨?_, ?_, ?_, ?_⟩
    · unfold Sync.compare
      rw [mem_sortedStr, List.mem_filter]
      simp [List.elem_iff]
    · unfold Sync.compare
      rw [mem_sortedStr, List.mem_filter]
      simp [List.elem_iff]
    · unfold Sync.compare
      rw [List.mem_filter, mem_sortedStr, List.mem_filter]
      simp [List.elem_iff]
      tauto
    · unfold Sync.compare
      rw [List.mem_filter, mem_sortedStr, List.mem_filter]
      simp [List.elem_iff]
      tauto
  · decide

/-! ## C1 — block-hash list of a zero-byte file -/

/-- Claim C1, evaluated at the failing input: for a zero-byte file the claim
(and the repository's own `test_hasher.py::test_empty_file`) requires exactly
one block hash, `max(1, ceil(0/chunkSize)) = 1`; but `compute_hashes` never
flushes a block when no bytes were read (`block_bytes > 0` is false), so its
`block_list` is empty. -/
theorem compute_hashes_empty_file_block_list :
    (Hasher.compute_hashes [] Config.UPLOAD_CHUNK_SIZE).block_list = [] ∧
    ((Hasher.compute_hashes [] Config.UPLOAD_CHUNK_SIZE).block_list).length = 0 ∧
    max 1 (ceilDiv (List.length ([] : List Nat)) Config.UPLOAD_CHUNK_SIZE) = 1 := by
  have h1 : (Hasher.compute_hashes [] Config.UPLOAD_CHUNK_SIZE).block_list = [] := by
    simp [Hasher.compute_hashes, Hasher.readLoop]
  refine ⟨h1, ?_, by decide⟩
  rw [h1]
  rfl

/-! ## C2 — a connection-error-only batch still re-precreates -/

/-- Claim C2, evaluated at a falsifying input: in a run where the only
failure is a transient connection error on slice 2 during the first batch
(no HTTP 400 anywhere), the loop nevertheless calls `precreate` once and
replaces the upload id (`uploadid-1` → `uploadid-2`) before retrying the
failed slice, because `_upload_slices_with_refresh` re-precreates after
every failed batch — its `has_400` distinction is dead code. -/
theorem conn_error_batch_still_precreates :
    Uploader.isDone (Uploader.runLoop Uploader.connErrOnceEnv 3
      Config.UPLOAD_CHUNK_SIZE 0 5
      (Uploader.initState "uploadid-1" [] [0, 1, 2])) = true ∧
    (Uploader.resultState (Uploader.runLoop Uploader.connErrOnceEnv 3
      Config.UPLOAD_CHUNK_SIZE 0 5
      (Uploader.initState "uploadid-1" [] [0, 1, 2]))).precreate_calls = 1 ∧
    (Uploader.resultState (Uploader.runLoop Uploader.connErrOnceEnv 3
      Config.UPLOAD_CHUNK_SIZE 0 5
      (Uploader.initState "uploadid-1" [] [0, 1, 2]))).current_upload_id =
      "uploadid-2" ∧
    (Uploader.resultState (Uploader.runLoop Uploader.connErrOnceEnv 3
      Config.UPLOAD_CHUNK_SIZE 0 5
      (Uploader.initState "uploadid-1" [] [0, 1, 2]))).slice_calls =
      [(0, "uploadid-1"), (1, "uploadid-1"), (2, "uploadid-1"),
       (2, "uploadid-2")] := by
  decide

/-! ## C6 — resume uploads exactly the slices missing from the saved session -/

/-- Claim C6: with a persisted session whose chunk size matches the current
effective chunk size, exactly the needed slices not in its `uploaded_parts`
set remain to be uploaded; with a differing persisted chunk size the saved
session is discarded and all needed slices remain.  In the concrete instance
(`{0}` persisted complete out of needed `{0,1,2}`) a fully successful run
sends exactly slices 1 and 2. -/
theorem upload_resume_skips_uploaded :
    (∀ (need : List Nat) (p : Uploader.ProgressDict) (cs : Nat),
      p.chunk_size.getD Config.UPLOAD_CHUNK_SIZE = cs →
      Uploader.parts_remaining_after_resume need (some p) cs =
        need.filter (fun i => !((p.uploaded_parts.getD []).contains i))) ∧
    (∀ (need : List Nat) (p : Uploader.ProgressDict) (cs : Nat),
      p.chunk_size.getD Config.UPLOAD_CHUNK_SIZE ≠ cs →
      Uploader.parts_remaining_after_resume need (some p) cs = need) ∧
    List.map Prod.fst
      (Uploader.resultState (Uploader.runLoop Uploader.allOkEnv 3
        Config.UPLOAD_CHUNK_SIZE 0 1
        (Uploader.initState "uploadid-1"
          (Uploader.resume_uploaded_parts
            (some ⟨some "uploadid-1", some [0], some Config.UPLOAD_CHUNK_SIZE⟩)
            Config.UPLOAD_CHUNK_SIZE)
          (Uploader.parts_remaining_after_resume [0, 1, 2]
            (some ⟨some "uploadid-1", some [0], some Config.UPLOAD_CHUNK_SIZE⟩)
            Config.UPLOAD_CHUNK_SIZE)))).slice_calls = [1, 2] ∧
    Uploader.isDone (Uploader.runLoop Uploader.allOkEnv 3
      Config.UPLOAD_CHUNK_SIZE 0 1
      (Uploader.initState "uploadid-1"
        (Uploader.resume_uploaded_parts
          (some ⟨some "uploadid-1", some [0], some Config.UPLOAD_CHUNK_SIZE⟩)
          Config.UPLOAD_CHUNK_SIZE)
        (Uploader.parts_remaining_after_resume [0, 1, 2]
          (some ⟨some "uploadid-1", some [0], some Config.UPLOAD_CHUNK_SIZE⟩)
          Config.UPLOAD_CHUNK_SIZE))) = true := by
  refine ⟨?_, ?_, by decide, by decide⟩
  · intro need p cs h
    simp [Uploader.parts_remaining_after_resume, Uploader.resume_uploaded_parts, h]
  · intro need p cs h
    simp [Uploader.parts_remaining_after_resume, Uploader.resume_uploaded_parts, h]

/-- Witness for C6 at the claim's instance: needed `{0,1,2}`, persisted
session with `{0}` complete and a matching chunk size — slices `{1,2}`
remain. -/
theorem upload_resume_skips_uploaded_witness :
    Uploader.parts_remaining_after_resume [0, 1, 2]
      (some ⟨some "uploadid-1", some [0], some Config.UPLOAD_CHUNK_SIZE⟩)
      Config.UPLOAD_CHUNK_SIZE = [1, 2] := by
  have h := upload_resume_skips_uploaded.1 [0, 1, 2]
    ⟨some "uploadid-1", some [0], some Config.UPLOAD_CHUNK_SIZE⟩
    Config.UPLOAD_CHUNK_SIZE rfl
  rw [h]
  decide

/-! ## C3 — abort after the session-refresh bound, with progress persisted -/

theorem not_mem_addParts {a : Nat} {u n : List Nat} (h1 : ¬a ∈ u) (h2 : ¬a ∈ n) :
    ¬a ∈ Uploader.addParts u n := by
  unfold Uploader.addParts
  rw [List.mem_append]
  rintro (h | h)
  · exact h1 h
  · exact h2 (List.mem_filter.mp h).1

theorem contains_eq_false_of_not_mem {a : Nat} {l : List Nat} (h : ¬a ∈ l) :
    l.contains a = false := by
  cases hc : l.contains a
  · rfl
  · exact absurd (List.elem_iff.mp hc) h

/-- Claim C3: if every batch keeps failing (here: some slice `bad` never
succeeds and is never already uploaded), then as soon as the number of
refresh cycles would exceed `MAX_SESSION_REFRESHES` the run aborts, and the
progress record persisted at the moment of the abort is exactly the
accumulated set of successfully completed slice indices (sorted), together
with the current upload id and the chunk size. -/
theorem session_refresh_bound (env : Uploader.RefreshEnv)
    (total chunkSize bad : Nat) (hbad : ∀ r, env.outcome r bad ≠ .ok) :
    ∀ (fuel round : Nat) (s : Uploader.UploadState),
      bad ∈ s.parts_remaining → bad < total → ¬bad ∈ s.uploaded_parts →
      s.session_refreshes ≤ Uploader.MAX_SESSION_REFRESHES →
      Uploader.MAX_SESSION_REFRESHES + 1 ≤ s.session_refreshes + fuel →
      ∃ st, Uploader.runLoop env total chunkSize round fuel s = .aborted st ∧
        st.saved = some { upload_id := st.current_upload_id,
                          uploaded_parts := Uploader.sortParts st.uploaded_parts,
                          chunk_size := chunkSize } ∧
        st.session_refreshes = Uploader.MAX_SESSION_REFRESHES + 1 := by
  intro fuel
  induction fuel with
  | zero =>
    intro round s h1 h2 h3 h4 h5
    omega
  | succ fuel ih =>
    intro round s hIn hLt hUp hle hfuel
    have hne : s.parts_remaining ≠ [] := List.ne_nil_of_mem hIn
    have hsucc : ¬bad ∈ s.parts_remaining.filter
        (fun p => env.outcome round p = .ok) := by
      intro hc
      exact hbad round (of_decide_eq_true (List.mem_filter.mp hc).2)
    have hUp2 : ¬bad ∈ Uploader.addParts s.uploaded_parts
        (s.parts_remaining.filter (fun p => env.outcome round p = .ok)) :=
      not_mem_addParts hUp hsucc
    have hall : (s.parts_remaining.all
        (fun p => env.outcome round p = .ok)) = false := by
      rw [List.all_eq_false]
      exact ⟨bad, hIn, fun hc => hbad round (of_decide_eq_true hc)⟩
    simp only [Uploader.runLoop]
    rw [if_neg hne]
    simp only [hall, Bool.false_eq_true, if_false]
    by_cases hmax :
        Uploader.MAX_SESSION_REFRESHES < s.session_refreshes + 1
    · rw [if_pos hmax]
      refine ⟨_, rfl, rfl, ?_⟩
      simp only []
      omega
    · rw [if_neg hmax]
      apply ih (round + 1)
      · refine List.mem_filter.mpr ⟨List.mem_range.mpr hLt, ?_⟩
        rw [contains_eq_false_of_not_mem hUp2]
        rfl
      · exact hLt
      · exact hUp2
      · simp only []
        omega
      · simp only []
        omega

/-- Witness for C3: 21 consecutive batches failing with HTTP 400 starting
from a fresh three-slice upload — the run aborts with the progress record
persisted. -/
theorem session_refresh_bound_witness :
    ∃ st, Uploader.runLoop Uploader.always400Env 3 Config.UPLOAD_CHUNK_SIZE 0 21
        (Uploader.initState "uploadid-1" [] [0, 1, 2]) = .aborted st ∧
      st.saved = some { upload_id := st.current_upload_id,
                        uploaded_parts := Uploader.sortParts st.uploaded_parts,
                        chunk_size := Config.UPLOAD_CHUNK_SIZE } ∧
      st.session_refreshes = Uploader.MAX_SESSION_REFRESHES + 1 :=
  session_refresh_bound Uploader.always400Env 3 Config.UPLOAD_CHUNK_SIZE 0
    (fun r => by simp [Uploader.always400Env]) 21 0
    (Uploader.initState "uploadid-1" [] [0, 1, 2])
    (by decide) (by decide) (by decide) (by decide) (by decide)

end BaiduPan
